import Mathlib

/-!
# Verification of the RSI notification core (`kishlay_try.py`)

Shallow embedding of the two core functions of the repository:

* `calculate_rsi` — given a series of closing prices and a lookback window,
  computes the Relative Strength Index series via `data.diff()`,
  `np.where` gain/loss splitting, and `rolling(window, min_periods=1).mean()`.
* `check_signals` — maps the current RSI value (and the latest close, which it
  ignores) to an optional alert message containing the wall-clock instant.

Prices are modelled as exact rationals (`ℚ`).  IEEE special values produced by
the division `avg_gain / avg_loss` are modelled explicitly: `0/0` is NaN
(embedded as `none`, an undefined RSI entry), and `g/0` with `g > 0` is `+∞`,
which makes `100 - 100/(1 + rs)` collapse to `100`.
-/

namespace KishlayTry

/-- One step of the gain stream: `np.where(delta > 0, delta, 0)` for
`delta = y - prev` (source line 42). -/
def gainStep (prev y : ℚ) : ℚ := if y - prev > 0 then y - prev else 0

/-- One step of the loss stream: `np.where(delta < 0, -delta, 0)` for
`delta = y - prev` (source line 43). -/
def lossStep (prev y : ℚ) : ℚ := if y - prev < 0 then -(y - prev) else 0

/-- Tail of a delta-derived stream: applies `f prev y` along consecutive
pairs of the price series. -/
def deltaAux (f : ℚ → ℚ → ℚ) : ℚ → List ℚ → List ℚ
  | _, [] => []
  | prev, y :: ys => f prev y :: deltaAux f y ys

/-- A delta-derived stream over the whole series.  Index 0 carries `0`:
`data.diff()` puts NaN there, and `np.where(NaN > 0, ..., 0)` (resp. `< 0`)
selects the `0` branch because comparisons with NaN are false. -/
def deltaStream (f : ℚ → ℚ → ℚ) : List ℚ → List ℚ
  | [] => []
  | x :: xs => 0 :: deltaAux f x xs

/-- The gain stream `np.where(delta > 0, delta, 0)` of source line 42. -/
def gains (data : List ℚ) : List ℚ := deltaStream gainStep data

/-- The loss stream `np.where(delta < 0, -delta, 0)` of source line 43. -/
def losses (data : List ℚ) : List ℚ := deltaStream lossStep data

/-- `pd.Series(xs).rolling(window=w, min_periods=1).mean()` (source lines
45-46): entry `i` is the arithmetic mean of the trailing `min (i+1) w`
entries of `xs`, i.e. of `xs[i+1-k .. i]` with `k = min (i+1) w`. -/
def rollingMean (w : ℕ) (xs : List ℚ) : List ℚ :=
  (List.range xs.length).map (fun i =>
    let k := min (i + 1) w
    ((xs.take (i + 1)).drop (i + 1 - k)).sum / (k : ℚ))

/-- `rs = g / l; rsi = 100 - (100 / (1 + rs))` (source lines 48-49) under
IEEE float semantics for nonnegative `g`, `l`: when `l = 0` and `g = 0` the
quotient is NaN and the RSI entry is undefined (`none`); when `l = 0` and
`g ≠ 0` the quotient is `+∞` and the RSI entry is `100`; otherwise the
arithmetic is exact. -/
def rsiFrom (g l : ℚ) : Option ℚ :=
  if l = 0 then (if g = 0 then none else some 100)
  else some (100 - 100 / (1 + g / l))

/-- `calculate_rsi` (source lines 32-50): the RSI series, one entry per
input price, `none` marking a NaN entry. -/
def calculate_rsi (data : List ℚ) (window : ℕ := 14) : List (Option ℚ) :=
  List.zipWith rsiFrom (rollingMean window (gains data))
    (rollingMean window (losses data))

/-- Modelled from the spec: the error-reporting contract of spec §7, which
requires `compute_rsi` to reject a length-0 series with a distinct
`InsufficientHistory` error instead of silently returning a result.  This
definition follows the spec words; the source `calculate_rsi` has no such
error path and is compared against it. -/
def compute_rsi_spec (data : List ℚ) (window : ℕ) :
    Except String (List (Option ℚ)) :=
  if data.isEmpty then Except.error "InsufficientHistory"
  else Except.ok (calculate_rsi data window)

/-- The five discrete outcomes of the signal classifier (spec §3). -/
inductive Signal where
  | overboughtStopBuying
  | exitShort
  | oversoldBuy
  | lockProfits

deriving instance DecidableEq, Repr for Signal

/-- An emitted alert message (source lines 61-68): the f-string
`[{datetime.now()}] RSI: {rsi:.2f} - <body>` decomposed into the wall-clock
instant, the RSI value, and the constant body text. -/
structure Message where
  time : ℕ
  rsiVal : ℚ
  body : String

deriving instance DecidableEq for Message

/-- `check_signals` (source lines 52-69).  `now` models `datetime.now()`,
read from the environment at each branch; `last_close` is a parameter of the
source function that its body never reads. -/
def check_signals (rsi last_close : ℚ) (now : ℕ) : Option Message :=
  if rsi ≥ 80 then
    some ⟨now, rsi, "Stop Buying. Overbought condition (Short Strategy)."⟩
  else if rsi ≤ 40 then
    some ⟨now, rsi, "Sell Signal. Exit short position (Short Strategy)."⟩
  else if rsi ≤ 20 then
    some ⟨now, rsi, "Buy Signal. Oversold condition (Long Strategy)."⟩
  else if rsi ≥ 60 then
    some ⟨now, rsi, "Sell Signal. Lock profits (Long Strategy)."⟩
  else none

/-- The branch structure of `check_signals` with the spec's signal tags in
place of the message strings: the same if-chain, in the same order, as
source lines 61-69. -/
def classify (rsi : ℚ) : Option Signal :=
  if rsi ≥ 80 then some Signal.overboughtStopBuying
  else if rsi ≤ 40 then some Signal.exitShort
  else if rsi ≤ 20 then some Signal.oversoldBuy
  else if rsi ≥ 60 then some Signal.lockProfits
  else none

/-! ## Basic structural lemmas -/

theorem deltaAux_length (f : ℚ → ℚ → ℚ) (p : ℚ) (xs : List ℚ) :
    (deltaAux f p xs).length = xs.length := by
  induction xs generalizing p with
  | nil => rfl
  | cons y ys ih => simp [deltaAux, ih]

theorem deltaStream_length (f : ℚ → ℚ → ℚ) (data : List ℚ) :
    (deltaStream f data).length = data.length := by
  cases data with
  | nil => rfl
  | cons x xs => simp [deltaStream, deltaAux_length]

theorem rollingMean_length (w : ℕ) (xs : List ℚ) :
    (rollingMean w xs).length = xs.length := by
  simp [rollingMean]

theorem calculate_rsi_length (data : List ℚ) (w : ℕ) :
    (calculate_rsi data w).length = data.length := by
  simp [calculate_rsi, rollingMean_length, gains, losses, deltaStream_length]

theorem rollingMean_getElem? (w : ℕ) (xs : List ℚ) (i : ℕ) (hi : i < xs.length) :
    (rollingMean w xs)[i]? =
      some (((xs.take (i + 1)).drop (i + 1 - min (i + 1) w)).sum /
        ((min (i + 1) w : ℕ) : ℚ)) := by
  simp [rollingMean, List.getElem?_map, List.getElem?_range, hi]

theorem calculate_rsi_getElem? (data : List ℚ) (w i : ℕ) (g l : ℚ)
    (hg : (rollingMean w (gains data))[i]? = some g)
    (hl : (rollingMean w (losses data))[i]? = some l) :
    (calculate_rsi data w)[i]? = some (rsiFrom g l) := by
  rw [calculate_rsi, List.getElem?_zipWith_eq_some]
  exact ⟨g, l, hg, hl, rfl⟩

theorem gainStep_nonneg (p y : ℚ) : 0 ≤ gainStep p y := by
  unfold gainStep
  split_ifs with h
  · linarith
  · exact le_refl 0

theorem lossStep_nonneg (p y : ℚ) : 0 ≤ lossStep p y := by
  unfold lossStep
  split_ifs with h
  · linarith
  · exact le_refl 0

theorem deltaAux_nonneg (f : ℚ → ℚ → ℚ) (hf : ∀ p y, 0 ≤ f p y) :
    ∀ (xs : List ℚ) (p : ℚ), ∀ x ∈ deltaAux f p xs, 0 ≤ x := by
  intro xs
  induction xs with
  | nil => intro p x hx; simp [deltaAux] at hx
  | cons y ys ih =>
    intro p x hx
    rw [deltaAux, List.mem_cons] at hx
    rcases hx with rfl | hx
    · exact hf p y
    · exact ih y x hx

theorem deltaStream_nonneg (f : ℚ → ℚ → ℚ) (hf : ∀ p y, 0 ≤ f p y)
    (data : List ℚ) : ∀ x ∈ deltaStream f data, 0 ≤ x := by
  cases data with
  | nil => intro x hx; simp [deltaStream] at hx
  | cons c cs =>
    intro x hx
    rw [deltaStream, List.mem_cons] at hx
    rcases hx with rfl | hx
    · exact le_refl 0
    · exact deltaAux_nonneg f hf cs c x hx

theorem gains_nonneg (data : List ℚ) : ∀ x ∈ gains data, 0 ≤ x :=
  deltaStream_nonneg gainStep gainStep_nonneg data

theorem losses_nonneg (data : List ℚ) : ∀ x ∈ losses data, 0 ≤ x :=
  deltaStream_nonneg lossStep lossStep_nonneg data

theorem rollingMean_nonneg (w : ℕ) (xs : List ℚ) (i : ℕ) (v : ℚ)
    (hnn : ∀ x ∈ xs, 0 ≤ x) (hv : (rollingMean w xs)[i]? = some v) : 0 ≤ v := by
  have hi : i < xs.length := by
    by_contra hcon
    rw [List.getElem?_eq_none (by rw [rollingMean_length]; omega)] at hv
    exact Option.noConfusion hv
  rw [rollingMean_getElem? w xs i hi, Option.some.injEq] at hv
  subst hv
  apply div_nonneg
  · exact List.sum_nonneg fun x hx =>
      hnn x (List.take_subset _ _ (List.drop_subset _ _ hx))
  · exact Nat.cast_nonneg _

theorem rsiFrom_bounds (g l r : ℚ) (hg : 0 ≤ g) (hl : 0 ≤ l)
    (h : rsiFrom g l = some r) : 0 ≤ r ∧ r ≤ 100 := by
  unfold rsiFrom at h
  split_ifs at h with h0 h1
  · rw [Option.some.injEq] at h
    subst h
    norm_num
  · rw [Option.some.injEq] at h
    subst h
    have hlpos : 0 < l := lt_of_le_of_ne hl (Ne.symm h0)
    have hfrac : 0 ≤ g / l := div_nonneg hg hl
    constructor
    · have hle : 100 / (1 + g / l) ≤ 100 := div_le_self (by norm_num) (by linarith)
      linarith
    · have hpos : 0 < 100 / (1 + g / l) := div_pos (by norm_num) (by linarith)
      linarith

/-! ## Signal classifier claims -/

/-- C3: the signal classifier evaluates its five threshold bands in the
exact priority order `rsi ≥ 80` → Overbought_StopBuying, then `rsi ≤ 40` →
ExitShort, then `rsi ≤ 20` → OversoldBuy, then `rsi ≥ 60` → LockProfits,
else none, first match winning; in particular `classify 85 =
Overbought_StopBuying`, `classify 20 = ExitShort`, `classify 19.9 =
ExitShort`, `classify 65 = LockProfits`, `classify 50 = none`, and
`classify 40 = ExitShort`. -/
theorem classify_priority_order :
    (∀ r : ℚ, 80 ≤ r → classify r = some Signal.overboughtStopBuying) ∧
    (∀ r : ℚ, r < 80 → r ≤ 40 → classify r = some Signal.exitShort) ∧
    (∀ r : ℚ, 60 ≤ r → r < 80 → classify r = some Signal.lockProfits) ∧
    (∀ r : ℚ, 40 < r → r < 60 → classify r = none) ∧
    classify 85 = some Signal.overboughtStopBuying ∧
    classify 20 = some Signal.exitShort ∧
    classify (19.9 : ℚ) = some Signal.exitShort ∧
    classify 65 = some Signal.lockProfits ∧
    classify 50 = none ∧
    classify 40 = some Signal.exitShort := by
  refine ⟨?_, ?_, ?_, ?_, ?_, ?_, ?_, ?_, ?_, ?_⟩
  · intro r h
    simp [classify, h]
  · intro r h1 h2
    have h3 : ¬ (80 : ℚ) ≤ r := not_le.mpr h1
    simp [classify, h3, h2]
  · intro r h1 h2
    have h3 : ¬ (80 : ℚ) ≤ r := not_le.mpr h2
    have h4 : ¬ r ≤ (40 : ℚ) := not_le.mpr (by linarith)
    have h5 : ¬ r ≤ (20 : ℚ) := not_le.mpr (by linarith)
    simp [classify, h3, h4, h5, h1]
  · intro r h1 h2
    have h3 : ¬ (80 : ℚ) ≤ r := not_le.mpr (by linarith)
    have h4 : ¬ r ≤ (40 : ℚ) := not_le.mpr h1
    have h5 : ¬ r ≤ (20 : ℚ) := not_le.mpr (by linarith)
    have h6 : ¬ (60 : ℚ) ≤ r := not_le.mpr h2
    simp [classify, h3, h4, h5, h6]
  all_goals norm_num [classify]

/-- Witness for C3 at concrete inputs. -/
theorem classify_priority_order_witness :
    classify 99 = some Signal.overboughtStopBuying ∧
    classify 30 = some Signal.exitShort :=
  ⟨classify_priority_order.1 99 (by norm_num),
   classify_priority_order.2.1 30 (by norm_num) (by norm_num)⟩

/-- C8: every `rsi ≤ 20` classifies as ExitShort, not OversoldBuy: the
`rsi ≤ 20` branch is shadowed by the higher-priority `rsi ≤ 40` branch, so
no input at all can produce the OversoldBuy signal. -/
theorem classify_oversoldBuy_unreachable :
    (∀ r : ℚ, r ≤ 20 → classify r = some Signal.exitShort) ∧
    ∀ r : ℚ, classify r ≠ some Signal.oversoldBuy := by
  constructor
  · intro r h
    have h1 : ¬ (80 : ℚ) ≤ r := not_le.mpr (by linarith)
    have h2 : r ≤ (40 : ℚ) := by linarith
    simp [classify, h1, h2]
  · intro r
    unfold classify
    split_ifs with h1 h2 h3 h4 <;> simp_all
    linarith

/-- Witness for C8 at a concrete input. -/
theorem classify_oversoldBuy_unreachable_witness :
    classify 10 = some Signal.exitShort ∧ classify 10 ≠ some Signal.oversoldBuy :=
  ⟨classify_oversoldBuy_unreachable.1 10 (by norm_num),
   classify_oversoldBuy_unreachable.2 10⟩

/-- C9 counterexample: two invocations of `check_signals` on the same RSI
value but at different wall-clock instants emit different messages (the
timestamp is embedded in the returned string), so the full emitted output
is not independent of the environment. -/
theorem check_signals_time_dependent :
    check_signals 85 0 0 ≠ check_signals 85 0 1 := by
  norm_num [check_signals]

/-- C9 amended: the branch selected and the signal content (RSI value and
message body) are a pure deterministic function of the RSI value alone —
any two invocations with the same RSI value agree on whether a signal fires
and on everything in the message except the embedded wall-clock instant. -/
theorem check_signals_classification_deterministic :
    ∀ (rsi c₁ c₂ : ℚ) (t₁ t₂ : ℕ),
      (check_signals rsi c₁ t₁).map (fun m => (m.rsiVal, m.body)) =
        (check_signals rsi c₂ t₂).map (fun m => (m.rsiVal, m.body)) ∧
      (check_signals rsi c₁ t₁).isSome = (check_signals rsi c₂ t₂).isSome := by
  intro rsi c₁ c₂ t₁ t₂
  unfold check_signals
  split_ifs <;> simp

/-- C10: the `last_close` parameter never influences the result of
`check_signals`: for every RSI value, every wall-clock instant and every
pair of latest-close values, the two invocations return identical results
(same branch, same signal, same message). -/
theorem check_signals_ignores_last_close :
    ∀ (rsi c₁ c₂ : ℚ) (t : ℕ),
      check_signals rsi c₁ t = check_signals rsi c₂ t := by
  intro rsi c₁ c₂ t
  rfl

/-! ## RSI engine claims -/

/-- C1 counterexample: on the constant series `[2, 2]`, both rolling
averages are `0` at position 1, and `calculate_rsi` returns an undefined
(NaN) entry there, not the neutral value 50. -/
theorem calculate_rsi_zero_zero_not_fifty :
    (calculate_rsi [2, 2] 14)[1]? = some none ∧
    (some (none : Option ℚ) : Option (Option ℚ)) ≠ some (some 50) := by
  constructor
  · norm_num [calculate_rsi, rollingMean, gains, losses, deltaStream,
      deltaAux, gainStep, lossStep, rsiFrom]
  · simp

/-- C1 amended: at every position where the rolling average gain and the
rolling average loss are both zero (in particular everywhere after index 0
on a constant price series), `calculate_rsi` returns an undefined (NaN)
entry — the `0 / 0` quotient is not recovered to the neutral value 50; no
error is raised, the undefined entry simply occupies that position of the
returned series. -/
theorem calculate_rsi_zero_zero_undefined (data : List ℚ) (w i : ℕ)
    (hg : (rollingMean w (gains data))[i]? = some 0)
    (hl : (rollingMean w (losses data))[i]? = some 0) :
    (calculate_rsi data w)[i]? = some none := by
  rw [calculate_rsi_getElem? data w i 0 0 hg hl]
  simp [rsiFrom]

/-- Witness for the amended C1 on the constant series `[3, 3]`. -/
theorem calculate_rsi_zero_zero_undefined_witness :
    (calculate_rsi [3, 3] 14)[1]? = some none :=
  calculate_rsi_zero_zero_undefined [3, 3] 14 1
    (by norm_num [rollingMean, gains, deltaStream, deltaAux, gainStep])
    (by norm_num [rollingMean, losses, deltaStream, deltaAux, lossStep])

/-- C2 counterexample: on a length-0 series the source `calculate_rsi`
silently returns the empty series — there is no error path at all — while
the spec-side contract `compute_rsi_spec` demands the distinct
`InsufficientHistory` error there. -/
theorem calculate_rsi_empty_no_error :
    calculate_rsi ([] : List ℚ) 14 = [] ∧
    compute_rsi_spec [] 14 = Except.error "InsufficientHistory" :=
  ⟨rfl, rfl⟩

/-- C2 amended: `calculate_rsi` applied to a length-0 series silently
returns the empty result (no error is raised or reported), and applied to
any length-1 series returns a single-element result whose only entry
(index 0) is undefined. -/
theorem calculate_rsi_short_series :
    calculate_rsi ([] : List ℚ) 14 = [] ∧
    ∀ (c : ℚ) (w : ℕ), calculate_rsi [c] w = [none] := by
  refine ⟨rfl, ?_⟩
  intro c w
  have h0 : ∀ n : ℕ, (List.drop n [(0 : ℚ)]).sum = 0 := by
    intro n
    cases n <;> simp
  simp [calculate_rsi, gains, losses, deltaStream, deltaAux,
    rollingMean, rsiFrom, h0]

/-- C4 counterexample: on the series `[0, 1]` with window 14, the rolling
average gain at position 1 is `1/2` — the single available gain value `1`
divided by 2, because the zero placeholder at index 0 also sits in the
window — not `1/1` as the claim's shrinking-window rule (divide by `i`)
demands. -/
theorem rollingMean_early_divisor :
    (rollingMean 14 (gains [0, 1]))[1]? = some (1 / 2) ∧
    ((1 : ℚ) / 2) ≠ (((gains [0, 1]).take 2).drop 1).sum / 1 := by
  constructor
  · norm_num [rollingMean, gains, deltaStream, deltaAux, gainStep]
  · norm_num [gains, deltaStream, deltaAux, gainStep]

/-- C4 amended: at every position `i` with `1 ≤ i < window`, the rolling
average gain (resp. loss) is the sum of the `i` available gain (resp.
loss) values at positions `1..i` divided by `i + 1`, not by `i`: the
rolling window of `pandas` also contains the zero placeholder that
`np.where` put at index 0, so it holds `i + 1` values. -/
theorem rollingMean_shrinking_window (data : List ℚ) (w i : ℕ)
    (h1 : 1 ≤ i) (h2 : i < w) (hi : i < data.length) :
    (rollingMean w (gains data))[i]? =
      some ((((gains data).take (i + 1)).drop 1).sum / ((i + 1 : ℕ) : ℚ)) ∧
    (rollingMean w (losses data))[i]? =
      some ((((losses data).take (i + 1)).drop 1).sum / ((i + 1 : ℕ) : ℚ)) := by
  have hmin : min (i + 1) w = i + 1 := min_eq_left (by omega)
  obtain ⟨x, xs, rfl⟩ : ∃ x xs, data = x :: xs := by
    cases data with
    | nil => simp at hi
    | cons x xs => exact ⟨x, xs, rfl⟩
  constructor
  · rw [rollingMean_getElem? w _ i (by rwa [gains, deltaStream_length]), hmin]
    rw [gains, deltaStream, List.take_succ_cons]
    simp [Nat.sub_self, List.sum_cons]
  · rw [rollingMean_getElem? w _ i (by rwa [losses, deltaStream_length]), hmin]
    rw [losses, deltaStream, List.take_succ_cons]
    simp [Nat.sub_self, List.sum_cons]

/-- Witness for the amended C4 on `[0, 1]` at position 1 with window 14. -/
theorem rollingMean_shrinking_window_witness :
    (rollingMean 14 (gains [0, 1]))[1]? =
      some ((((gains [0, 1]).take 2).drop 1).sum / ((2 : ℕ) : ℚ)) ∧
    (rollingMean 14 (losses [0, 1]))[1]? =
      some ((((losses [0, 1]).take 2).drop 1).sum / ((2 : ℕ) : ℚ)) :=
  rollingMean_shrinking_window [0, 1] 14 1 (by norm_num) (by norm_num) (by simp)

/-- C5 counterexample: on the series `[1, 1]` a delta exists at position 1
(`delta[1] = 0`), yet the RSI entry there is undefined (NaN), not a number
in `[0, 100]`. -/
theorem calculate_rsi_nan_after_first :
    (calculate_rsi [1, 1] 14)[1]? = some none := by
  norm_num [calculate_rsi, rollingMean, gains, losses, deltaStream,
    deltaAux, gainStep, lossStep, rsiFrom]

/-- C5 amended: every defined RSI entry produced by `calculate_rsi` lies in
the closed interval `[0, 100]`; entries can however be undefined (NaN)
after index 0, namely where all trailing deltas in the window are zero. -/
theorem calculate_rsi_mem_Icc (data : List ℚ) (w i : ℕ) (r : ℚ)
    (h : (calculate_rsi data w)[i]? = some (some r)) : 0 ≤ r ∧ r ≤ 100 := by
  rw [calculate_rsi, List.getElem?_zipWith_eq_some] at h
  obtain ⟨g, l, hg, hl, hr⟩ := h
  exact rsiFrom_bounds g l r
    (rollingMean_nonneg w (gains data) i g (gains_nonneg data) hg)
    (rollingMean_nonneg w (losses data) i l (losses_nonneg data) hl) hr

/-- Witness for the amended C5: the RSI value 100 produced on `[10, 12]`
at position 1 is inside `[0, 100]`. -/
theorem calculate_rsi_mem_Icc_witness : 0 ≤ (100 : ℚ) ∧ (100 : ℚ) ≤ 100 :=
  calculate_rsi_mem_Icc [10, 12] 14 1 100
    (by norm_num [calculate_rsi, rollingMean, gains, losses, deltaStream,
      deltaAux, gainStep, lossStep, rsiFrom])

theorem deltaAux_take (f : ℚ → ℚ → ℚ) :
    ∀ (xs : List ℚ) (p : ℚ) (n : ℕ),
      deltaAux f p (xs.take n) = (deltaAux f p xs).take n := by
  intro xs
  induction xs with
  | nil => intro p n; simp [deltaAux]
  | cons y ys ih =>
    intro p n
    cases n with
    | zero => simp [deltaAux]
    | succ m => simp [deltaAux, List.take_succ_cons, ih]

theorem deltaStream_take (f : ℚ → ℚ → ℚ) (data : List ℚ) (n : ℕ) :
    deltaStream f (data.take n) = (deltaStream f data).take n := by
  cases data with
  | nil => simp [deltaStream]
  | cons x xs =>
    cases n with
    | zero => simp [deltaStream]
    | succ m => simp [deltaStream, List.take_succ_cons, deltaAux_take]

theorem gains_take (data : List ℚ) (n : ℕ) :
    gains (data.take n) = (gains data).take n :=
  deltaStream_take gainStep data n

theorem losses_take (data : List ℚ) (n : ℕ) :
    losses (data.take n) = (losses data).take n :=
  deltaStream_take lossStep data n

theorem rollingMean_take (w : ℕ) (xs : List ℚ) (n i : ℕ)
    (hin : i < n) (hi : i < xs.length) :
    (rollingMean w (xs.take n))[i]? = (rollingMean w xs)[i]? := by
  have hi' : i < (xs.take n).length := by
    rw [List.length_take]
    omega
  rw [rollingMean_getElem? w _ i hi', rollingMean_getElem? w xs i hi,
    List.take_take, min_eq_left (by omega : i + 1 ≤ n)]

theorem drop_single_zero_sum (n : ℕ) : (List.drop n [(0 : ℚ)]).sum = 0 := by
  cases n <;> simp

/-- C6: for every non-empty input series, `calculate_rsi` returns a series
of exactly the input's length, its entry at index 0 is undefined, and its
entry at every index `i` is determined purely by the prefix of the input up
to and including position `i` (together with the window size). -/
theorem calculate_rsi_alignment (data : List ℚ) (w : ℕ) :
    (calculate_rsi data w).length = data.length ∧
    (data ≠ [] → (calculate_rsi data w)[0]? = some none) ∧
    ∀ i, i < data.length →
      (calculate_rsi data w)[i]? = (calculate_rsi (data.take (i + 1)) w)[i]? := by
  refine ⟨calculate_rsi_length data w, ?_, ?_⟩
  · intro hne
    obtain ⟨x, xs, rfl⟩ : ∃ x xs, data = x :: xs := by
      cases data with
      | nil => exact absurd rfl hne
      | cons x xs => exact ⟨x, xs, rfl⟩
    have hlg : (0 : ℕ) < (gains (x :: xs)).length := by
      rw [gains, deltaStream_length]
      simp
    have hll : (0 : ℕ) < (losses (x :: xs)).length := by
      rw [losses, deltaStream_length]
      simp
    have hg : (rollingMean w (gains (x :: xs)))[0]? = some 0 := by
      rw [rollingMean_getElem? w _ 0 hlg, gains, deltaStream]
      simp [drop_single_zero_sum]
    have hl : (rollingMean w (losses (x :: xs)))[0]? = some 0 := by
      rw [rollingMean_getElem? w _ 0 hll, losses, deltaStream]
      simp [drop_single_zero_sum]
    rw [calculate_rsi_getElem? (x :: xs) w 0 0 0 hg hl]
    simp [rsiFrom]
  · intro i hi
    have hgl : i < (gains data).length := by rwa [gains, deltaStream_length]
    have hll : i < (losses data).length := by rwa [losses, deltaStream_length]
    have hg := rollingMean_getElem? w (gains data) i hgl
    have hl := rollingMean_getElem? w (losses data) i hll
    have hg' : (rollingMean w (gains (data.take (i + 1))))[i]? =
        (rollingMean w (gains data))[i]? := by
      rw [gains_take, rollingMean_take w (gains data) (i + 1) i (by omega) hgl]
    have hl' : (rollingMean w (losses (data.take (i + 1))))[i]? =
        (rollingMean w (losses data))[i]? := by
      rw [losses_take, rollingMean_take w (losses data) (i + 1) i (by omega) hll]
    rw [calculate_rsi_getElem? data w i _ _ hg hl,
      calculate_rsi_getElem? (data.take (i + 1)) w i _ _ (hg'.trans hg) (hl'.trans hl)]

/-- Witness for C6 on the concrete series `[1, 2]`. -/
theorem calculate_rsi_alignment_witness :
    (calculate_rsi [1, 2] 14).length = ([1, 2] : List ℚ).length ∧
    (calculate_rsi [1, 2] 14)[0]? = some none ∧
    (calculate_rsi [1, 2] 14)[1]? = (calculate_rsi (([1, 2] : List ℚ).take 2) 14)[1]? :=
  ⟨(calculate_rsi_alignment [1, 2] 14).1,
   (calculate_rsi_alignment [1, 2] 14).2.1 (by simp),
   (calculate_rsi_alignment [1, 2] 14).2.2 1 (by simp)⟩

theorem deltaAux_lossStep_eq_replicate :
    ∀ (xs : List ℚ) (p : ℚ), List.Chain' (· < ·) (p :: xs) →
      deltaAux lossStep p xs = List.replicate xs.length 0 := by
  intro xs
  induction xs with
  | nil => intro p _; rfl
  | cons y ys ih =>
    intro p h
    rw [List.chain'_cons] at h
    rw [deltaAux, ih y h.2]
    have hstep : lossStep p y = 0 := by
      unfold lossStep
      rw [if_neg (not_lt.mpr (by linarith [h.1]))]
    rw [hstep]
    simp [List.replicate_succ]

theorem deltaAux_gainStep_eq_replicate :
    ∀ (xs : List ℚ) (p : ℚ), List.Chain' (· > ·) (p :: xs) →
      deltaAux gainStep p xs = List.replicate xs.length 0 := by
  intro xs
  induction xs with
  | nil => intro p _; rfl
  | cons y ys ih =>
    intro p h
    rw [List.chain'_cons] at h
    rw [deltaAux, ih y h.2]
    have hstep : gainStep p y = 0 := by
      unfold gainStep
      rw [if_neg (not_lt.mpr (by linarith [h.1]))]
    rw [hstep]
    simp [List.replicate_succ]

theorem losses_eq_replicate (data : List ℚ) (h : List.Chain' (· < ·) data) :
    losses data = List.replicate data.length 0 := by
  cases data with
  | nil => rfl
  | cons x xs =>
    rw [losses, deltaStream, deltaAux_lossStep_eq_replicate xs x h]
    simp [List.replicate_succ]

theorem gains_eq_replicate (data : List ℚ) (h : List.Chain' (· > ·) data) :
    gains data = List.replicate data.length 0 := by
  cases data with
  | nil => rfl
  | cons x xs =>
    rw [gains, deltaStream, deltaAux_gainStep_eq_replicate xs x h]
    simp [List.replicate_succ]

theorem rollingMean_replicate_zero (w n i : ℕ) (hi : i < n) :
    (rollingMean w (List.replicate n (0 : ℚ)))[i]? = some 0 := by
  rw [rollingMean_getElem? w _ i (by simpa using hi)]
  rw [List.take_replicate, List.drop_replicate, List.sum_replicate]
  simp

theorem deltaAux_gainStep_pos :
    ∀ (xs : List ℚ) (p : ℚ), List.Chain' (· < ·) (p :: xs) →
      ∀ x ∈ deltaAux gainStep p xs, 0 < x := by
  intro xs
  induction xs with
  | nil => intro p _ x hx; simp [deltaAux] at hx
  | cons y ys ih =>
    intro p h x hx
    rw [List.chain'_cons] at h
    rw [deltaAux, List.mem_cons] at hx
    rcases hx with rfl | hx
    · unfold gainStep
      rw [if_pos (by linarith [h.1])]
      linarith [h.1]
    · exact ih y h.2 x hx

theorem deltaAux_lossStep_pos :
    ∀ (xs : List ℚ) (p : ℚ), List.Chain' (· > ·) (p :: xs) →
      ∀ x ∈ deltaAux lossStep p xs, 0 < x := by
  intro xs
  induction xs with
  | nil => intro p _ x hx; simp [deltaAux] at hx
  | cons y ys ih =>
    intro p h x hx
    rw [List.chain'_cons] at h
    rw [deltaAux, List.mem_cons] at hx
    rcases hx with rfl | hx
    · unfold lossStep
      rw [if_pos (by linarith [h.1])]
      linarith [h.1]
    · exact ih y h.2 x hx

theorem rollingMean_entry_pos (w : ℕ) (xs : List ℚ) (i : ℕ) (hw : 0 < w)
    (hnn : ∀ x ∈ xs, 0 ≤ x) (hi : i < xs.length) (hp : 0 < xs[i]) :
    ∃ v, 0 < v ∧ (rollingMean w xs)[i]? = some v := by
  refine ⟨_, ?_, rollingMean_getElem? w xs i hi⟩
  have hk : 0 < min (i + 1) w := by omega
  apply div_pos ?_ (by exact_mod_cast hk)
  have htl : (xs.take (i + 1)).length = i + 1 := by
    rw [List.length_take]
    omega
  have hlt : min (i + 1) w - 1 <
      ((xs.take (i + 1)).drop (i + 1 - min (i + 1) w)).length := by
    rw [List.length_drop, htl]
    omega
  have hget : ((xs.take (i + 1)).drop (i + 1 - min (i + 1) w))[min (i + 1) w - 1] =
      xs[i] := by
    rw [List.getElem_drop, List.getElem_take]
    congr 1
    omega
  have hmem : xs[i] ∈ (xs.take (i + 1)).drop (i + 1 - min (i + 1) w) := by
    rw [← hget]
    exact List.getElem_mem hlt
  have hWnn : ∀ x ∈ (xs.take (i + 1)).drop (i + 1 - min (i + 1) w), 0 ≤ x :=
    fun x hx => hnn x (List.take_subset _ _ (List.drop_subset _ _ hx))
  exact lt_of_lt_of_le hp (List.single_le_sum hWnn _ hmem)

/-- C7: on every strictly increasing price series (given a positive window)
the rolling average loss is 0 at every position and the RSI is 100 at every
position after index 0; on every strictly decreasing price series the
rolling average gain is 0 at every position and the RSI is 0 at every
position after index 0. -/
theorem calculate_rsi_monotone_series (data : List ℚ) (w : ℕ) (hw : 0 < w) :
    (List.Chain' (· < ·) data →
      (∀ i, i < data.length → (rollingMean w (losses data))[i]? = some 0) ∧
      ∀ i, 1 ≤ i → i < data.length →
        (calculate_rsi data w)[i]? = some (some 100)) ∧
    (List.Chain' (· > ·) data →
      (∀ i, i < data.length → (rollingMean w (gains data))[i]? = some 0) ∧
      ∀ i, 1 ≤ i → i < data.length →
        (calculate_rsi data w)[i]? = some (some 0)) := by
  constructor
  · intro hchain
    have havgl : ∀ i, i < data.length → (rollingMean w (losses data))[i]? = some 0 := by
      intro i hi
      rw [losses_eq_replicate data hchain]
      exact rollingMean_replicate_zero w _ i hi
    refine ⟨havgl, ?_⟩
    intro i h1 hi
    obtain ⟨x, xs, rfl⟩ : ∃ x xs, data = x :: xs := by
      cases data with
      | nil => simp at hi
      | cons x xs => exact ⟨x, xs, rfl⟩
    have hgl : i < (gains (x :: xs)).length := by
      rwa [gains, deltaStream_length]
    have hpos : 0 < (gains (x :: xs))[i] := by
      obtain ⟨j, rfl⟩ : ∃ j, i = j + 1 := ⟨i - 1, by omega⟩
      simp only [gains, deltaStream, List.getElem_cons_succ]
      refine deltaAux_gainStep_pos xs x hchain _ (List.getElem_mem ?_)
      rw [deltaAux_length]
      simp at hi
      omega
    obtain ⟨v, hvpos, hveq⟩ :=
      rollingMean_entry_pos w (gains (x :: xs)) i hw (gains_nonneg _) hgl hpos
    rw [calculate_rsi_getElem? (x :: xs) w i v 0 hveq (havgl i hi)]
    simp [rsiFrom, hvpos.ne']
  · intro hchain
    have havgg : ∀ i, i < data.length → (rollingMean w (gains data))[i]? = some 0 := by
      intro i hi
      rw [gains_eq_replicate data hchain]
      exact rollingMean_replicate_zero w _ i hi
    refine ⟨havgg, ?_⟩
    intro i h1 hi
    obtain ⟨x, xs, rfl⟩ : ∃ x xs, data = x :: xs := by
      cases data with
      | nil => simp at hi
      | cons x xs => exact ⟨x, xs, rfl⟩
    have hll : i < (losses (x :: xs)).length := by
      rwa [losses, deltaStream_length]
    have hpos : 0 < (losses (x :: xs))[i] := by
      obtain ⟨j, rfl⟩ : ∃ j, i = j + 1 := ⟨i - 1, by omega⟩
      simp only [losses, deltaStream, List.getElem_cons_succ]
      refine deltaAux_lossStep_pos xs x hchain _ (List.getElem_mem ?_)
      rw [deltaAux_length]
      simp at hi
      omega
    obtain ⟨v, hvpos, hveq⟩ :=
      rollingMean_entry_pos w (losses (x :: xs)) i hw (losses_nonneg _) hll hpos
    rw [calculate_rsi_getElem? (x :: xs) w i 0 v (havgg i hi) hveq]
    norm_num [rsiFrom, hvpos.ne']

/-- Witness for C7 on the concrete series `[1, 2, 3]` and `[3, 2, 1]`. -/
theorem calculate_rsi_monotone_series_witness :
    (calculate_rsi [1, 2, 3] 14)[2]? = some (some 100) ∧
    (calculate_rsi [3, 2, 1] 14)[1]? = some (some 0) :=
  ⟨((calculate_rsi_monotone_series [1, 2, 3] 14 (by norm_num)).1
      (by norm_num [List.chain'_cons, List.chain'_singleton])).2 2
      (by norm_num) (by simp),
   ((calculate_rsi_monotone_series [3, 2, 1] 14 (by norm_num)).2
      (by norm_num [List.chain'_cons, List.chain'_singleton])).2 1
      (by norm_num) (by simp)⟩

end KishlayTry
